import Mathlib

/-!
Verification of the chunk-embed-index-retrieve pipeline of the research
backend (`backend/utility/ingest.py`, `backend/schema/pydantic_models.py`,
`backend/api/route/research.py`).

Python strings are modelled as Lean `String`s; the Python `str` helpers used
by the source (`split`, `strip`, `lstrip`, `join`, `startswith`, `in`,
slicing) are defined below with Python's semantics.  External collaborators
(the FastEmbed embedding model, the FAISS index, the language model) are not
part of the repository; where a repository function calls them, the call is
abstracted by an explicit parameter carrying the collaborator's reply, and
every property proved is about the repository's own code around that reply.
-/

namespace Research

/-- The ASCII whitespace characters recognised by Python's `str.split()` and
`str.strip()`. -/
def pyWs (c : Char) : Bool :=
  c = ' ' || c = '\t' || c = '\n' || c = '\r' || c = '\x0b' || c = '\x0c'

/-- Accumulator pass behind `pySplit`: `acc` holds the current word's
characters in reverse; a word is emitted whenever a whitespace character (or
the end of the input) is reached with a non-empty accumulator. -/
def pySplitAux : List Char → List Char → List String
  | [], acc => if acc.isEmpty then [] else [String.mk acc.reverse]
  | c :: cs, acc =>
    if pyWs c then
      if acc.isEmpty then pySplitAux cs [] else String.mk acc.reverse :: pySplitAux cs []
    else
      pySplitAux cs (c :: acc)

/-- Python `text.split()` (no separator): split on runs of whitespace,
producing no empty fields. -/
def pySplit (s : String) : List String :=
  pySplitAux s.toList []

/-- Accumulator pass behind `pySplitChar`. -/
def pySplitCharAux (sep : Char) : List Char → List Char → List String
  | [], acc => [String.mk acc.reverse]
  | c :: cs, acc =>
    if c = sep then String.mk acc.reverse :: pySplitCharAux sep cs []
    else pySplitCharAux sep cs (c :: acc)

/-- Python `s.split(sep)` for a one-character separator (the source only
splits on `'\n'` and on the first `':'`): every occurrence of `sep` delimits
a field, and empty fields are kept. -/
def pySplitChar (sep : Char) (s : String) : List String :=
  pySplitCharAux sep s.toList []

/-- Python `s.strip()`: remove leading and trailing whitespace. -/
def pyStrip (s : String) : String :=
  String.mk (((s.toList.dropWhile pyWs).reverse.dropWhile pyWs).reverse)

/-- Python `s.lstrip(chars)`: remove leading characters that belong to the
character set `chars`. -/
def pyLstrip (s : String) (chars : List Char) : String :=
  String.mk (s.toList.dropWhile (fun c => chars.contains c))

/-- Python `sep.join(ws)`. -/
def pyJoin (sep : String) : List String → String
  | [] => ""
  | w :: ws => if ws.isEmpty then w else w ++ sep ++ pyJoin sep ws

/-- The `while i < len(words)` loop of `chunk_text`
(`ingest.py` lines 18-27).  The loop body emits
`" ".join(words[i:i+chunk_size])` and advances `i` by
`step = chunk_size - overlap`; the Python loop runs until `i` reaches the
word count, which the fuel argument makes explicit: when `step ≥ 1` any
fuel of at least `words.length` iterations is enough (proved below), which
is exactly the termination argument of the source. -/
def chunkLoop (words : List String) (chunk_size step : Nat) : Nat → Nat → List String
  | 0, _ => []
  | fuel + 1, i =>
    if i < words.length then
      pyJoin " " ((words.drop i).take chunk_size) :: chunkLoop words chunk_size step fuel (i + step)
    else []

/-- `chunk_text` (`ingest.py` lines 10-29): word-based sliding windows of
`chunk_size` words advancing by `chunk_size - overlap`, with the
`chunks if chunks else [text]` fallback. -/
def chunk_text (text : String) (chunk_size : Nat) (overlap : Nat) : List String :=
  let words := pySplit text
  let chunks := chunkLoop words chunk_size (chunk_size - overlap) words.length 0
  if chunks.isEmpty then [text] else chunks

/-- `TextInput.validate_overlap` / `QuestionAnswerInput.validate_overlap`
(`pydantic_models.py` lines 25-31): the pydantic field validator raises a
`ValueError` (an input error rejecting the request) when
`chunk_overlap ≥ chunk_size`, and accepts the value otherwise. -/
def validate_overlap (chunk_size v : Nat) : Except String Nat :=
  if chunk_size ≤ v then
    Except.error ("chunk_overlap (" ++ toString v ++ ") must be less than chunk_size ("
      ++ toString chunk_size ++ ") to avoid infinite loops")
  else
    Except.ok v

/-! ## Loop lemmas for `chunk_text` -/

theorem chunkLoop_of_len_le (words : List String) (c s : Nat) :
    ∀ fuel i, words.length ≤ i → chunkLoop words c s fuel i = [] := by
  intro fuel i h
  cases fuel with
  | zero => rfl
  | succ f => simp [chunkLoop, Nat.not_lt.2 h]

theorem chunkLoop_stable (words : List String) (c s : Nat) (hs : 1 ≤ s) :
    ∀ f₁ f₂ i, words.length - i ≤ f₁ → words.length - i ≤ f₂ →
      chunkLoop words c s f₁ i = chunkLoop words c s f₂ i := by
  intro f₁
  induction f₁ with
  | zero =>
    intro f₂ i h₁ h₂
    have hi : words.length ≤ i := by omega
    rw [chunkLoop_of_len_le words c s 0 i hi, chunkLoop_of_len_le words c s f₂ i hi]
  | succ f ih =>
    intro f₂ i h₁ h₂
    by_cases hi : i < words.length
    · cases f₂ with
      | zero => omega
      | succ g =>
        simp only [chunkLoop, if_pos hi]
        exact congrArg _ (ih g (i + s) (by omega) (by omega))
    · rw [chunkLoop_of_len_le words c s _ i (by omega),
        chunkLoop_of_len_le words c s _ i (by omega)]

theorem chunkLoop_length (words : List String) (c s : Nat) (hs : 1 ≤ s) :
    ∀ fuel i, words.length - i ≤ fuel → i < words.length →
      (chunkLoop words c s fuel i).length = (words.length - i - 1) / s + 1 := by
  intro fuel
  induction fuel with
  | zero => intro i h hi; omega
  | succ f ih =>
    intro i h hi
    simp only [chunkLoop, if_pos hi, List.length_cons]
    by_cases h2 : i + s < words.length
    · rw [ih (i + s) (by omega) h2]
      have hrw : words.length - i - 1 = (words.length - (i + s) - 1) + s := by omega
      rw [hrw, Nat.add_div_right _ (by omega)]
    · rw [chunkLoop_of_len_le words c s f (i + s) (by omega)]
      have hlt : words.length - i - 1 < s := by omega
      simp [Nat.div_eq_of_lt hlt]

theorem chunkLoop_getElem? (words : List String) (c s : Nat) (hs : 1 ≤ s) :
    ∀ fuel i k, words.length - i ≤ fuel →
      (chunkLoop words c s fuel i)[k]? =
        if i + k * s < words.length then
          some (pyJoin " " ((words.drop (i + k * s)).take c))
        else none := by
  intro fuel
  induction fuel with
  | zero =>
    intro i k h
    have hn : ¬ (i + k * s < words.length) := by omega
    simp [chunkLoop, hn]
  | succ f ih =>
    intro i k h
    by_cases hi : i < words.length
    · simp only [chunkLoop, if_pos hi]
      cases k with
      | zero => simp [hi]
      | succ k' =>
        simp only [List.getElem?_cons_succ]
        rw [ih (i + s) k' (by omega)]
        have harith : i + s + k' * s = i + (k' + 1) * s := by ring
        rw [harith]
    · have hn : ¬ (i + k * s < words.length) := by omega
      rw [chunkLoop_of_len_le words c s _ i (by omega)]
      simp [hn]

theorem chunkLoop_mem (words : List String) (c s : Nat) :
    ∀ fuel i chunk, chunk ∈ chunkLoop words c s fuel i →
      ∃ j, j < words.length ∧ chunk = pyJoin " " ((words.drop j).take c) := by
  intro fuel
  induction fuel with
  | zero => intro i chunk h; simp [chunkLoop] at h
  | succ f ih =>
    intro i chunk h
    by_cases hi : i < words.length
    · rw [chunkLoop, if_pos hi] at h
      rcases List.mem_cons.1 h with h1 | h2
      · exact ⟨i, hi, h1⟩
      · exact ih (i + s) chunk h2
    · rw [chunkLoop_of_len_le words c s _ i (by omega)] at h
      simp at h

theorem chunk_text_eq_loop (text : String) (c o : Nat) (hoc : o < c)
    (hw : 1 ≤ (pySplit text).length) :
    chunk_text text c o =
      chunkLoop (pySplit text) c (c - o) (pySplit text).length 0 := by
  have hlen : (chunkLoop (pySplit text) c (c - o) (pySplit text).length 0).length
      = ((pySplit text).length - 0 - 1) / (c - o) + 1 :=
    chunkLoop_length (pySplit text) c (c - o) (by omega) _ 0 (by omega) (by omega)
  have hne : chunkLoop (pySplit text) c (c - o) (pySplit text).length 0 ≠ [] := by
    intro hcon
    rw [hcon] at hlen
    simp at hlen
  unfold chunk_text
  simp [List.isEmpty_iff, hne]

/-! ## Helper lemmas about the string model -/

theorem stringMk_ne_empty (l : List Char) (h : l ≠ []) : String.mk l ≠ "" := by
  intro hcon
  apply h
  have := congrArg String.data hcon
  simpa using this

theorem string_length_pos_of_ne_empty (w : String) (h : w ≠ "") : 0 < w.length := by
  cases w with
  | mk data =>
    cases data with
    | nil => exact absurd rfl h
    | cons a l => simp [String.length]

theorem pySplitAux_mem_ne_empty :
    ∀ (l acc : List Char) (w : String), w ∈ pySplitAux l acc → w ≠ "" := by
  intro l
  induction l with
  | nil =>
    intro acc w hw
    by_cases h : acc.isEmpty
    · simp [pySplitAux, h] at hw
    · simp [pySplitAux, h] at hw
      subst hw
      exact stringMk_ne_empty _ (by
        simp only [ne_eq, List.reverse_eq_nil_iff]
        intro hcon
        rw [hcon] at h
        simp at h)
  | cons c cs ih =>
    intro acc w hw
    by_cases hc : pyWs c
    · by_cases h : acc.isEmpty
      · rw [pySplitAux, if_pos hc, if_pos h] at hw
        exact ih [] w hw
      · rw [pySplitAux, if_pos hc, if_neg h] at hw
        rcases List.mem_cons.1 hw with h1 | h2
        · subst h1
          exact stringMk_ne_empty _ (by
            simp only [ne_eq, List.reverse_eq_nil_iff]
            intro hcon
            rw [hcon] at h
            simp at h)
        · exact ih [] w h2
    · rw [pySplitAux, if_neg hc] at hw
      exact ih (c :: acc) w hw

theorem pySplit_mem_ne_empty (text : String) (w : String) (hw : w ∈ pySplit text) :
    w ≠ "" :=
  pySplitAux_mem_ne_empty text.toList [] w hw

theorem pyJoin_length_ge (sep w : String) (ws : List String) :
    w.length ≤ (pyJoin sep (w :: ws)).length := by
  cases ws with
  | nil => simp [pyJoin]
  | cons v vs =>
    simp [pyJoin, String.length_append]
    omega

/-! ## Claim C1 -/

/-- C1 (as stated, refuted at a concrete input): the claim predicts
`⌈(w-c)/(c-o)⌉ + 1` chunks when `w > c`.  For the five-word text
`"a b c d e"` with `chunk_size = 3`, `overlap = 2` the predicted count is
`⌈(5-3)/1⌉ + 1 = 3`, but `chunk_text` emits a window at every start index
`0, 1, 2, 3, 4` and returns five chunks. -/
theorem c1_counterexample :
    (chunk_text "a b c d e" 3 2).length = 5 ∧ (5 - 3 + (3 - 2) - 1) / (3 - 2) + 1 = 3 := by
  constructor
  · decide
  · decide

/-- C1 (amended): for every text whose word count `w` is at least 1 and
parameters `o < c`, `chunk_text` produces exactly `(w - 1) / (c - o) + 1`
chunks (that is `⌈w/(c-o)⌉`, not `⌈(w-c)/(c-o)⌉ + 1`; a single chunk is
produced exactly when `w ≤ c - o`); the `k`-th chunk is the space-join of the
word window starting at `k * (c - o)` of width `c`; and the windows cover
every word index of the input with no gaps. -/
theorem c1_chunk_count_and_coverage (text : String) (c o : Nat) (hoc : o < c)
    (hw : 1 ≤ (pySplit text).length) :
    (chunk_text text c o).length = ((pySplit text).length - 1) / (c - o) + 1 ∧
    (∀ k, (chunk_text text c o)[k]? =
      if k * (c - o) < (pySplit text).length then
        some (pyJoin " " (((pySplit text).drop (k * (c - o))).take c))
      else none) ∧
    (∀ j, j < (pySplit text).length →
      ∃ k, k * (c - o) ≤ j ∧ j < k * (c - o) + c ∧ k * (c - o) < (pySplit text).length) := by
  have hs : 1 ≤ c - o := by omega
  rw [chunk_text_eq_loop text c o hoc hw]
  refine ⟨?_, ?_, ?_⟩
  · have := chunkLoop_length (pySplit text) c (c - o) hs (pySplit text).length 0
      (by omega) (by omega)
    simpa using this
  · intro k
    have := chunkLoop_getElem? (pySplit text) c (c - o) hs (pySplit text).length 0 k (by omega)
    simpa using this
  · intro j hj
    set s := c - o with hsdef
    refine ⟨j / s, Nat.div_mul_le_self j s, ?_, ?_⟩
    · have h1 : j % s < s := Nat.mod_lt j (by omega)
      have h2 : s * (j / s) + j % s = j := Nat.div_add_mod j s
      have h3 : s * (j / s) + j % s < s * (j / s) + c :=
        Nat.add_lt_add_left (lt_of_lt_of_le h1 (by omega)) _
      rw [h2] at h3
      rw [Nat.mul_comm]
      exact h3
    · exact lt_of_le_of_lt (Nat.div_mul_le_self j s) hj

/-- C1 witness: concrete instance of the amended count formula. -/
theorem c1_witness :
    (chunk_text "a b c" 2 1).length = ((pySplit "a b c").length - 1) / (2 - 1) + 1 :=
  (c1_chunk_count_and_coverage "a b c" 2 1 (by decide) (by decide)).1

/-! ## Claim C2 -/

/-- C2: for `overlap < chunk_size` the window start strictly advances each
iteration and the chunking loop terminates — with step `c - o ≥ 1`, any fuel
of at least the word count yields the same (stable) result, which is the
fixed point the Python `while` loop reaches; and for
`chunk_overlap ≥ chunk_size` the pydantic validator rejects the request with
an input error before chunking can execute. -/
theorem c2_termination_and_validation (c o : Nat) (text : String) :
    (o < c →
      (∀ i : Nat, i < i + (c - o)) ∧
      ∀ fuel, (pySplit text).length ≤ fuel →
        chunkLoop (pySplit text) c (c - o) fuel 0 =
          chunkLoop (pySplit text) c (c - o) (pySplit text).length 0) ∧
    (c ≤ o → ∃ msg, validate_overlap c o = Except.error msg) := by
  constructor
  · intro hoc
    refine ⟨fun i => by omega, fun fuel hf => ?_⟩
    exact chunkLoop_stable _ c _ (by omega) fuel _ 0 (by omega) (by omega)
  · intro hco
    unfold validate_overlap
    rw [if_pos hco]
    exact ⟨_, rfl⟩

/-- C2 witness: with `chunk_size = 3`, `overlap = 1` the loop on a four-word
text is already stable at fuel 9, and `chunk_overlap = 5 ≥ chunk_size = 3`
is rejected by the validator. -/
theorem c2_witness :
    chunkLoop (pySplit "a b c d") 3 (3 - 1) 9 0 =
      chunkLoop (pySplit "a b c d") 3 (3 - 1) (pySplit "a b c d").length 0 ∧
    ∃ msg, validate_overlap 3 5 = Except.error msg :=
  ⟨((c2_termination_and_validation 3 1 "a b c d").1 (by decide)).2 9 (by decide),
   (c2_termination_and_validation 3 5 "x").2 (by decide)⟩

/-! ## Claim C4 -/

/-- C4 (as stated, refuted at a concrete input): for the empty input text the
degenerate fallback `chunks if chunks else [text]` returns `[""]`, a
single empty chunk of length 0. -/
theorem c4_counterexample :
    chunk_text "" 300 50 = [""] ∧ ("" : String).length = 0 := by
  constructor
  · decide
  · decide

/-- C4 (amended): for every non-empty input text and parameters
`overlap < chunk_size`, every chunk returned by `chunk_text` is non-empty:
emitted window joins start with a non-empty word, and the degenerate
fallback returns the original text, which is empty only when the input
is the empty string. -/
theorem c4_chunks_nonempty (text : String) (c o : Nat) (ht : text ≠ "") (hoc : o < c) :
    ∀ chunk ∈ chunk_text text c o, 0 < chunk.length := by
  intro chunk hchunk
  simp only [chunk_text] at hchunk
  split at hchunk
  · rcases List.mem_singleton.1 hchunk with rfl
    exact string_length_pos_of_ne_empty _ ht
  · obtain ⟨j, hj, rfl⟩ := chunkLoop_mem _ c _ _ _ chunk hchunk
    obtain ⟨w0, rest, hcons⟩ :=
      List.exists_cons_of_ne_nil (show (pySplit text).drop j ≠ [] by
        intro hcon
        have := congrArg List.length hcon
        simp at this
        omega)
    rw [hcons]
    cases c with
    | zero => omega
    | succ c' =>
      rw [List.take_succ_cons]
      have hw0 : w0 ∈ pySplit text := by
        have : w0 ∈ (pySplit text).drop j := by rw [hcons]; exact List.mem_cons_self _ _
        exact List.drop_subset j (pySplit text) this
      have hpos : 0 < w0.length :=
        string_length_pos_of_ne_empty _ (pySplit_mem_ne_empty text w0 hw0)
      exact lt_of_lt_of_le hpos (pyJoin_length_ge " " w0 _)

/-- C4 witness: `"hello"` is a non-empty text and its single chunk has
positive length. -/
theorem c4_witness : ("hello" : String) ≠ "" ∧ 0 < ("hello" : String).length :=
  ⟨by decide, c4_chunks_nonempty "hello" 3 1 (by decide) (by decide) "hello" (by decide)⟩

/-! ## Question-generation parser (`generate_questions_from_chunks`) -/

/-- The character set of the numbering strip in
`generate_questions_from_chunks`: `'0123456789.-) '`. -/
def numberingChars : List Char :=
  ['0', '1', '2', '3', '4', '5', '6', '7', '8', '9', '.', '-', ')', ' ']

/-- Response parsing of `generate_questions_from_chunks`
(`ingest.py` lines 108-116) as a pure function of the language model's
response text (the `llm.invoke` call and the `.content` normalisation of the
response object are external): split the stripped response into lines, keep
lines that are non-blank and contain a question mark, strip leading
numbering characters, keep only questions longer than 10 characters, and
truncate to `num_questions`. -/
def parse_questions (response_text : String) (num_questions : Nat) : List String :=
  let lines := pySplitChar '\n' (pyStrip response_text)
  let questions := (lines.filter
      (fun line => !(pyStrip line).isEmpty && line.toList.contains '?')).map
    (fun line => pyStrip (pyLstrip (pyStrip line) numberingChars))
  (questions.filter (fun q => 10 < q.length)).take num_questions

/-! ## Claim C3 -/

/-- C3 (as stated, refuted): on the model output
`"1. What is X?\n2. Not a question.\nWhy?\n"` with `num_questions = 5` the
parser does not return `["What is X?", "Why?"]`. -/
theorem c3_counterexample :
    parse_questions "1. What is X?\n2. Not a question.\nWhy?\n" 5 ≠ ["What is X?", "Why?"] := by
  decide

/-- C3 (amended): on the model output
`"1. What is X?\n2. Not a question.\nWhy?\n"` with `num_questions = 5` the
parser returns `[]`: the middle line is dropped for lacking `'?'`, and the
two surviving lines strip to `"What is X?"` (exactly 10 characters) and
`"Why?"` (4 characters), both of which the length filter `len(q) > 10`
discards. -/
theorem c3_parser_result :
    parse_questions "1. What is X?\n2. Not a question.\nWhy?\n" 5 = [] ∧
    (pyStrip (pyLstrip (pyStrip "1. What is X?") numberingChars)).length = 10 ∧
    (pyStrip (pyLstrip (pyStrip "Why?") numberingChars)).length = 4 := by
  refine ⟨by decide, by decide, by decide⟩

/-! ## Multi-question answer parser (`answer_multiple_questions`) -/

/-- Per-line extraction of `answer_multiple_questions`
(`ingest.py` lines 228-233): strip the line; when it starts with `'Q'` and
contains `':'`, the answer is everything after the first colon, stripped. -/
def extractLineAnswer (l : String) : Option String :=
  let line := pyStrip l
  if (line.toList.head? == some 'Q') && line.toList.contains ':' then
    some (pyStrip (String.mk ((line.toList.dropWhile (fun c => c != ':')).drop 1)))
  else
    none

/-- Response parsing of `answer_multiple_questions`
(`ingest.py` lines 216-235) as a pure function of the model's response text
(the prompt construction and `llm.invoke` are external): extract answers
line by line and truncate to the number of input questions. -/
def answer_multiple_questions_parse (response_text : String) (questions : List String) :
    List String :=
  ((pySplitChar '\n' (pyStrip response_text)).filterMap extractLineAnswer).take
    questions.length

/-- A line of the literal form `Qn: answer` — `'Q'`, one or more digits,
then a colon — written from the wording of claim C8 (spec §4.5), to compare
the spec's description with the code's guard. -/
def isQnForm (s : String) : Bool :=
  match s.toList with
  | [] => false
  | c :: rest =>
    c == 'Q' && !(rest.takeWhile Char.isDigit).isEmpty &&
      ((rest.dropWhile Char.isDigit).head? == some ':')

theorem mem_of_head?_eq {α : Type} (l : List α) (a : α) (h : l.head? = some a) : a ∈ l := by
  cases l with
  | nil => simp at h
  | cons b t =>
    simp at h
    rw [h]
    exact List.mem_cons_self _ _

/-! ## Claim C8 -/

/-- C8 (as stated, refuted): the line `"QQQ: hi"` is not of the form
`Qn: answer text`, yet `answer_multiple_questions` extracts an answer from
it, because the code's guard is only `line.startswith('Q') and ':' in
line`. -/
theorem c8_counterexample :
    answer_multiple_questions_parse "QQQ: hi" ["q"] = ["hi"] ∧ isQnForm "QQQ: hi" = false := by
  refine ⟨by decide, by decide⟩

/-- C8 (amended): answers are extracted exactly from the lines that, after
stripping, start with `'Q'` and contain a colon — a strict superset of the
`Qn: answer text` format; every line of the literal `Qn:` form is extracted,
every line failing the guard is ignored, and the returned answer list is
truncated to at most the number of input questions. -/
theorem c8_parse_guard_and_truncation (resp : String) (qs : List String) :
    (answer_multiple_questions_parse resp qs).length ≤ qs.length ∧
    (∀ l : String, isQnForm (pyStrip l) = true → (extractLineAnswer l).isSome = true) ∧
    (∀ l : String,
      (pyStrip l).toList.head? ≠ some 'Q' ∨ (pyStrip l).toList.contains ':' = false →
      extractLineAnswer l = none) := by
  refine ⟨List.length_take_le _ _, ?_, ?_⟩
  · intro l h
    cases hl : (pyStrip l).toList with
    | nil =>
      unfold isQnForm at h
      rw [hl] at h
      simp at h
    | cons c rest =>
      unfold isQnForm at h
      rw [hl] at h
      simp only [Bool.and_eq_true, beq_iff_eq] at h
      obtain ⟨⟨hcQ, hdig⟩, hcolon⟩ := h
      subst hcQ
      have hmem : ':' ∈ 'Q' :: rest := by
        have h1 : ':' ∈ rest.dropWhile Char.isDigit := by
          have := Option.mem_def.2 hcolon
          exact mem_of_head?_eq _ _ hcolon
        exact List.mem_cons_of_mem _ ((List.dropWhile_sublist Char.isDigit).subset h1)
      unfold extractLineAnswer
      simp only [hl]
      simp [hmem]
  · intro l h
    rcases h with h | h
    · simp only [extractLineAnswer]
      simp only [ite_eq_right_iff, Bool.and_eq_true, beq_iff_eq]
      intro hcon
      exact absurd hcon.1 h
    · simp only [extractLineAnswer]
      simp only [ite_eq_right_iff, Bool.and_eq_true, beq_iff_eq]
      intro hcon
      rw [hcon.2] at h
      simp at h

/-- C8 witness: concrete instances of the guard and the truncation bound. -/
theorem c8_witness :
    (answer_multiple_questions_parse "Q1: alpha\nQ2: beta\njunk" ["one"]).length ≤ 1 ∧
    (extractLineAnswer "Q1: alpha").isSome = true ∧
    extractLineAnswer "no colon here" = none :=
  ⟨(c8_parse_guard_and_truncation "Q1: alpha\nQ2: beta\njunk" ["one"]).1,
   (c8_parse_guard_and_truncation "x" []).2.1 "Q1: alpha" (by decide),
   (c8_parse_guard_and_truncation "x" []).2.2 "no colon here" (Or.inr (by decide))⟩

/-! ## Citation extraction (`answer_question_from_text`) -/

/-- Boolean substring containment on character lists: Python's `pat in s`. -/
def listContainsSub (pat : List Char) : List Char → Bool
  | [] => pat.isEmpty
  | c :: t => pat.isPrefixOf (c :: t) || listContainsSub pat t

/-- Python `pat in s` for strings. -/
def strContainsSub (s pat : String) : Bool :=
  listContainsSub pat.toList s.toList

/-- The label `"Source i"` looked up in the answer text
(`ingest.py` line 171). -/
def sourceLabel (i : Nat) : String :=
  "Source " ++ toString i

/-- The 200-character preview of a cited chunk (`ingest.py` line 174):
`chunks[i][:200] + "..."` when the chunk exceeds 200 characters, the chunk
itself otherwise. -/
def truncate_chunk (chunk : String) : String :=
  if 200 < chunk.length then String.mk (chunk.toList.take 200) ++ "..." else chunk

/-- A citation record `{"source_id": i+1, "text": ...}`
(`ingest.py` lines 172-175). -/
structure SourceRec where
  source_id : Nat
  text : String
  deriving DecidableEq

/-- The `for i in range(len(chunks))` citation scan of
`answer_question_from_text` (`ingest.py` lines 169-175); `i0` is the
enumeration index of the first element of `chunks`. -/
def citedSourcesAux (answer_text : String) : List String → Nat → List SourceRec
  | [], _ => []
  | chunk :: rest, i =>
    if strContainsSub answer_text (sourceLabel (i + 1)) then
      ⟨i + 1, truncate_chunk chunk⟩ :: citedSourcesAux answer_text rest (i + 1)
    else
      citedSourcesAux answer_text rest (i + 1)

/-- `answer_question_from_text` (`ingest.py` lines 124-184) as a function of
the model's raw response text (prompt construction and `llm.invoke` are
external): the stripped answer text, paired with the cited-source records
when `include_sources` is set. -/
def answer_question_from_text (raw_response : String) (chunks : List String)
    (include_sources : Bool) : String × Option (List SourceRec) :=
  let answer_text := pyStrip raw_response
  (answer_text,
    if include_sources then some (citedSourcesAux answer_text chunks 0) else none)

theorem citedSourcesAux_mem (ans : String) :
    ∀ (chunks : List String) (i0 : Nat) (r : SourceRec),
      r ∈ citedSourcesAux ans chunks i0 ↔
        ∃ k chunk, chunks[k]? = some chunk ∧
          strContainsSub ans (sourceLabel (i0 + k + 1)) = true ∧
          r = ⟨i0 + k + 1, truncate_chunk chunk⟩ := by
  intro chunks
  induction chunks with
  | nil =>
    intro i0 r
    simp [citedSourcesAux]
  | cons chunk rest ih =>
    intro i0 r
    unfold citedSourcesAux
    by_cases hc : strContainsSub ans (sourceLabel (i0 + 1)) = true
    · rw [if_pos hc]
      simp only [List.mem_cons]
      constructor
      · rintro (rfl | hr)
        · exact ⟨0, chunk, by simp, by simpa using hc, by simp⟩
        · obtain ⟨k, ch, h1, h2, h3⟩ := (ih (i0 + 1) r).1 hr
          refine ⟨k + 1, ch, by simpa using h1, ?_, ?_⟩
          · rw [show i0 + (k + 1) + 1 = i0 + 1 + k + 1 by omega]
            exact h2
          · rw [show i0 + (k + 1) + 1 = i0 + 1 + k + 1 by omega]
            exact h3
      · rintro ⟨k, ch, h1, h2, h3⟩
        cases k with
        | zero =>
          left
          simp only [List.getElem?_cons_zero, Option.some.injEq] at h1
          subst h1
          simpa using h3
        | succ k' =>
          right
          refine (ih (i0 + 1) r).2 ⟨k', ch, by simpa using h1, ?_, ?_⟩
          · rw [show i0 + 1 + k' + 1 = i0 + (k' + 1) + 1 by omega]
            exact h2
          · rw [show i0 + 1 + k' + 1 = i0 + (k' + 1) + 1 by omega]
            exact h3
    · rw [if_neg hc]
      rw [ih (i0 + 1) r]
      constructor
      · rintro ⟨k, ch, h1, h2, h3⟩
        refine ⟨k + 1, ch, by simpa using h1, ?_, ?_⟩
        · rw [show i0 + (k + 1) + 1 = i0 + 1 + k + 1 by omega]
          exact h2
        · rw [show i0 + (k + 1) + 1 = i0 + 1 + k + 1 by omega]
          exact h3
      · rintro ⟨k, ch, h1, h2, h3⟩
        cases k with
        | zero =>
          simp only [List.getElem?_cons_zero, Option.some.injEq] at h1
          rw [show i0 + 0 + 1 = i0 + 1 by omega] at h2
          exact absurd h2 hc
        | succ k' =>
          refine ⟨k', ch, by simpa using h1, ?_, ?_⟩
          · rw [show i0 + 1 + k' + 1 = i0 + (k' + 1) + 1 by omega]
            exact h2
          · rw [show i0 + 1 + k' + 1 = i0 + (k' + 1) + 1 by omega]
            exact h3

theorem listContainsSub_mono (pat1 pat2 : List Char)
    (hpre : pat1.isPrefixOf pat2 = true) :
    ∀ s : List Char, listContainsSub pat2 s = true → listContainsSub pat1 s = true := by
  intro s
  induction s with
  | nil =>
    intro h
    unfold listContainsSub at h ⊢
    have h2 : pat2 = [] := by simpa [List.isEmpty_iff] using h
    subst h2
    have h1 : pat1 = [] := by
      cases pat1 with
      | nil => rfl
      | cons a t => simp [List.isPrefixOf] at hpre
    subst h1
    rfl
  | cons c t ih =>
    intro h
    unfold listContainsSub at h ⊢
    rw [Bool.or_eq_true] at h ⊢
    rcases h with hp | hr
    · have h1 : pat1 <+: pat2 := List.isPrefixOf_iff_prefix.1 hpre
      have h2 : pat2 <+: c :: t := List.isPrefixOf_iff_prefix.1 hp
      exact Or.inl (List.isPrefixOf_iff_prefix.2 (h1.trans h2))
    · exact Or.inr (ih hr)

/-! ## Claim C7 -/

/-- C7: with `include_sources = True` the sources list contains a record for
index `i` (with `1 ≤ i ≤ n`) iff the literal substring `Source i` occurs in
the (stripped) answer text; each record carries the chunk's text truncated
to 200 characters with an appended ellipsis exactly when the chunk exceeds
200 characters; and on the answer
`"According to Source 2, X happens."` with two chunks the sources list is
exactly one record with `source_id = 2`. -/
theorem c7_citation_extraction (raw : String) (chunks : List String) :
    ((answer_question_from_text raw chunks true).2 =
      some (citedSourcesAux (pyStrip raw) chunks 0)) ∧
    (∀ i, 1 ≤ i → i ≤ chunks.length →
      ((∃ r ∈ citedSourcesAux (pyStrip raw) chunks 0, r.source_id = i) ↔
        strContainsSub (pyStrip raw) (sourceLabel i) = true)) ∧
    (∀ r ∈ citedSourcesAux (pyStrip raw) chunks 0,
      ∃ chunk, chunks[r.source_id - 1]? = some chunk ∧
        r.text = truncate_chunk chunk ∧
        (chunk.length ≤ 200 → r.text = chunk) ∧
        (200 < chunk.length → r.text = String.mk (chunk.toList.take 200) ++ "...")) ∧
    answer_question_from_text "According to Source 2, X happens." ["alpha", "beta"] true =
      ("According to Source 2, X happens.", some [⟨2, "beta"⟩]) := by
  refine ⟨rfl, ?_, ?_, by decide⟩
  · intro i h1 h2
    constructor
    · rintro ⟨r, hr, hid⟩
      obtain ⟨k, ch, hk, hcont, rfl⟩ := (citedSourcesAux_mem _ chunks 0 r).1 hr
      simp only at hid
      rw [← hid]
      exact hcont
    · intro hcont
      have hk : i - 1 < chunks.length := by omega
      refine ⟨⟨0 + (i - 1) + 1, truncate_chunk (chunks.get ⟨i - 1, hk⟩)⟩,
        (citedSourcesAux_mem _ chunks 0 _).2
          ⟨i - 1, chunks.get ⟨i - 1, hk⟩, List.getElem?_eq_getElem hk, ?_, rfl⟩, ?_⟩
      · rw [show 0 + (i - 1) + 1 = i by omega]
        exact hcont
      · simp only
        omega
  · intro r hr
    obtain ⟨k, ch, hk, hcont, rfl⟩ := (citedSourcesAux_mem _ chunks 0 r).1 hr
    refine ⟨ch, by simpa using hk, rfl, ?_, ?_⟩
    · intro hle
      simp only
      unfold truncate_chunk
      rw [if_neg (by omega)]
    · intro hgt
      simp only
      unfold truncate_chunk
      rw [if_pos hgt]

/-- C7 witness: the example answer cites source 2 and the extraction finds
it. -/
theorem c7_witness :
    strContainsSub (pyStrip "According to Source 2, X happens.") (sourceLabel 2) = true ∧
    (∃ r ∈ citedSourcesAux (pyStrip "According to Source 2, X happens.")
        ["alpha", "beta"] 0, r.source_id = 2) :=
  ⟨by decide,
   ((c7_citation_extraction "According to Source 2, X happens." ["alpha", "beta"]).2.1 2
     (by decide) (by decide)).2 (by decide)⟩

/-! ## Claim C10 -/

/-- C10: citation matching is plain substring search over undelimited
labels: when the answer text contains `"Source 10"` and at least ten chunks
were supplied, the sources list contains a record with `source_id = 1` as
well as one with `source_id = 10`, because `"Source 1"` is a prefix (hence a
substring) of `"Source 10"`. -/
theorem c10_substring_citation (raw : String) (chunks : List String)
    (hlen : 10 ≤ chunks.length)
    (hcont : strContainsSub (pyStrip raw) (sourceLabel 10) = true) :
    (answer_question_from_text raw chunks true).2 =
      some (citedSourcesAux (pyStrip raw) chunks 0) ∧
    (∃ r ∈ citedSourcesAux (pyStrip raw) chunks 0, r.source_id = 1) ∧
    (∃ r ∈ citedSourcesAux (pyStrip raw) chunks 0, r.source_id = 10) := by
  refine ⟨rfl, ?_, ?_⟩
  · have h1 : strContainsSub (pyStrip raw) (sourceLabel 1) = true := by
      have hpre : (sourceLabel 1).toList.isPrefixOf (sourceLabel 10).toList = true := by
        decide
      exact listContainsSub_mono _ _ hpre _ hcont
    have hk : (0 : Nat) < chunks.length := by omega
    exact ⟨⟨0 + 0 + 1, truncate_chunk (chunks.get ⟨0, hk⟩)⟩,
      (citedSourcesAux_mem _ chunks 0 _).2
        ⟨0, chunks.get ⟨0, hk⟩, List.getElem?_eq_getElem hk, by simpa using h1, rfl⟩,
      by simp⟩
  · have hk : (9 : Nat) < chunks.length := by omega
    exact ⟨⟨0 + 9 + 1, truncate_chunk (chunks.get ⟨9, hk⟩)⟩,
      (citedSourcesAux_mem _ chunks 0 _).2
        ⟨9, chunks.get ⟨9, hk⟩, List.getElem?_eq_getElem hk, by simpa using hcont, rfl⟩,
      by simp⟩

/-- C10 witness: ten concrete chunks and the answer `"see Source 10"`. -/
theorem c10_witness :
    10 ≤ (["c1", "c2", "c3", "c4", "c5", "c6", "c7", "c8", "c9", "c10"] : List String).length ∧
    (∃ r ∈ citedSourcesAux (pyStrip "see Source 10")
        ["c1", "c2", "c3", "c4", "c5", "c6", "c7", "c8", "c9", "c10"] 0, r.source_id = 1) :=
  ⟨by decide,
   (c10_substring_citation "see Source 10"
     ["c1", "c2", "c3", "c4", "c5", "c6", "c7", "c8", "c9", "c10"]
     (by decide) (by decide)).2.1⟩

/-! ## Retrieval (`retrieve_relevant_chunks`) -/

/-- Python list indexing `chunks[idx]` with an `int` index: non-negative
indices address from the front, negative indices address from the end, and
anything out of range raises `IndexError` (modelled as `none`). -/
def pyGetElem (xs : List String) (i : Int) : Option String :=
  if 0 ≤ i then xs[i.toNat]?
  else if 0 ≤ i + xs.length then xs[(i + xs.length).toNat]?
  else none

/-- Evaluation of the Python list-comprehension body over the admitted
indices: the first out-of-range access aborts with `IndexError` (`none`). -/
def optionTraverse {α β : Type} (f : α → Option β) : List α → Option (List β)
  | [] => some []
  | a :: l =>
    match f a, optionTraverse f l with
    | some b, some r => some (b :: r)
    | _, _ => none

/-- `retrieve_relevant_chunks` (`ingest.py` lines 55-74).  The embedding of
the query and the FAISS `index.search` call are external: `searchFn k` is
the row `indices[0]` returned by `index.search(query_embedding, k)`, and
`ntotal` is `index.ntotal`.  The repository code clamps `k` to
`min(top_k, ntotal)` and keeps `chunks[idx]` for every returned index with
`idx < len(chunks)`. -/
def retrieve_relevant_chunks (chunks : List String) (ntotal : Nat)
    (searchFn : Nat → List Int) (top_k : Nat) : Option (List String) :=
  let k := min top_k ntotal
  let indices := searchFn k
  optionTraverse (pyGetElem chunks)
    (indices.filter (fun idx => idx < (chunks.length : Int)))

theorem optionTraverse_isSome {α β : Type} (f : α → Option β) :
    ∀ l : List α, (∀ a ∈ l, (f a).isSome = true) →
      ∃ r, optionTraverse f l = some r ∧ r.length = l.length := by
  intro l
  induction l with
  | nil => intro _; exact ⟨[], rfl, rfl⟩
  | cons a t ih =>
    intro h
    obtain ⟨b, hb⟩ := Option.isSome_iff_exists.1 (h a (List.mem_cons_self a t))
    obtain ⟨r, hr, hlen⟩ := ih (fun x hx => h x (List.mem_cons_of_mem _ hx))
    exact ⟨b :: r, by simp [optionTraverse, hb, hr], by simp [hlen]⟩

/-! ## Claim C5 -/

/-- C5: for a chunk list of length `n ≥ 1` built into the index
(`ntotal = n`), the search width is clamped to `min(top_k, n)`, and — given
the FAISS exact-search contract that a search with `k ≤ ntotal` returns
exactly `k` in-range indices — the function returns exactly `min(top_k, n)`
chunk texts; requesting more than `n` chunks yields all `n` rather than a
failure. -/
theorem c5_retrieval_count (chunks : List String) (searchFn : Nat → List Int) (top_k : Nat)
    (hn : 1 ≤ chunks.length)
    (hlen : (searchFn (min top_k chunks.length)).length = min top_k chunks.length)
    (hvalid : ∀ idx ∈ searchFn (min top_k chunks.length),
      0 ≤ idx ∧ idx < (chunks.length : Int)) :
    ∃ res, retrieve_relevant_chunks chunks chunks.length searchFn top_k = some res ∧
      res.length = min top_k chunks.length := by
  simp only [retrieve_relevant_chunks]
  have hfilter : (searchFn (min top_k chunks.length)).filter
      (fun idx => idx < (chunks.length : Int)) = searchFn (min top_k chunks.length) := by
    apply List.filter_eq_self.2
    intro a ha
    exact decide_eq_true (hvalid a ha).2
  rw [hfilter]
  have hsome : ∀ idx ∈ searchFn (min top_k chunks.length),
      (pyGetElem chunks idx).isSome = true := by
    intro idx hidx
    obtain ⟨h0, hlt⟩ := hvalid idx hidx
    unfold pyGetElem
    rw [if_pos h0, List.getElem?_eq_getElem (show idx.toNat < chunks.length by omega)]
    rfl
  obtain ⟨r, hr, hrlen⟩ := optionTraverse_isSome (pyGetElem chunks) _ hsome
  exact ⟨r, hr, by rw [hrlen, hlen]⟩

/-- C5 witness: two chunks, `top_k = 3`, a search row `[0, 1]`: exactly
`min(3, 2) = 2` chunks come back. -/
theorem c5_witness :
    ∃ res, retrieve_relevant_chunks ["a", "b"] (["a", "b"] : List String).length
        (fun _ => [(0 : Int), 1]) 3 = some res ∧
      res.length = min 3 (["a", "b"] : List String).length :=
  c5_retrieval_count ["a", "b"] (fun _ => [(0 : Int), 1]) 3 (by decide) (by decide)
    (by decide)

/-! ## Claim C9 -/

/-- C9: the out-of-range filter only tests `idx < len(chunks)`: a negative
search index (such as the `-1` FAISS emits when fewer than `k` neighbours
exist) passes the filter, and Python negative indexing then maps it to a
chunk counted from the end of the list instead of discarding it. -/
theorem c9_negative_index (chunks : List String) (top_k : Nat) (idx : Int)
    (hneg : idx < 0) (hin : 0 ≤ idx + (chunks.length : Int)) :
    (idx < (chunks.length : Int)) ∧
    ∃ chunkFromEnd, chunks[(idx + (chunks.length : Int)).toNat]? = some chunkFromEnd ∧
      retrieve_relevant_chunks chunks chunks.length (fun _ => [idx]) top_k =
        some [chunkFromEnd] := by
  have hlt : idx < (chunks.length : Int) := by omega
  have hk : (idx + (chunks.length : Int)).toNat < chunks.length := by omega
  refine ⟨hlt, chunks.get ⟨(idx + (chunks.length : Int)).toNat, hk⟩,
    List.getElem?_eq_getElem hk, ?_⟩
  simp only [retrieve_relevant_chunks]
  have hfilter : ([idx].filter (fun i => i < (chunks.length : Int))) = [idx] := by
    simp [hlt]
  rw [hfilter]
  have hget : pyGetElem chunks idx =
      some (chunks.get ⟨(idx + (chunks.length : Int)).toNat, hk⟩) := by
    unfold pyGetElem
    rw [if_neg (by omega : ¬ (0 : Int) ≤ idx), if_pos hin]
    exact List.getElem?_eq_getElem hk
  simp [optionTraverse, hget]

/-- C9 witness: three chunks and the index `-1`: the filter admits it and
the last chunk is returned. -/
theorem c9_witness :
    ((-1 : Int) < ((["a", "b", "c"] : List String).length : Int)) ∧
    ∃ chunkFromEnd,
      (["a", "b", "c"] : List String)[((-1 : Int) +
        ((["a", "b", "c"] : List String).length : Int)).toNat]? = some chunkFromEnd ∧
      retrieve_relevant_chunks ["a", "b", "c"] (["a", "b", "c"] : List String).length
        (fun _ => [(-1 : Int)]) 5 = some [chunkFromEnd] :=
  c9_negative_index ["a", "b", "c"] 5 (-1) (by decide) (by decide)

/-! ## Generate-questions endpoint (`research.py`) -/

/-- The response model `QuestionResponse` (`pydantic_models.py` lines
34-38), with the metadata reduced to the `total_chunks` field the endpoint
computes itself (`embedding_dimension` belongs to the external embedder). -/
structure QuestionResponse where
  questions : List String
  chunks_used : Nat
  model : String
  total_chunks : Nat
  deriving DecidableEq

/-- The `/research/generate-questions` endpoint (`research.py` lines
80-147) as a function of its external collaborators: `llmResult` is the
outcome of `get_available_llm()` (`Except.error` when no backend is
available, `Except.ok model_name` otherwise), `relevant_chunks` stands for
the output of the embed-index-retrieve stage (external FastEmbed and FAISS
calls), and `llmResponse` is the language model's response text fed to the
parser.  `Except.error (status, detail)` models the endpoint's
`HTTPException` branches. -/
def generate_questions_endpoint (llmResult : Except String String) (text : String)
    (chunk_size overlap num_questions : Nat) (relevant_chunks : List String)
    (llmResponse : String) : Except (Nat × String) QuestionResponse :=
  match llmResult with
  | Except.error e => Except.error (503, "LLM service unavailable: " ++ e)
  | Except.ok model_name =>
    let chunks := chunk_text text chunk_size overlap
    if chunks.isEmpty then
      Except.error (400, "Failed to chunk the text")
    else
      let questions := parse_questions llmResponse num_questions
      if questions.isEmpty then
        Except.error (500,
          "No questions were generated. Please try again or provide different text.")
      else
        Except.ok ⟨questions, relevant_chunks.length, model_name, chunks.length⟩

theorem chunk_text_ne_nil (text : String) (c o : Nat) : chunk_text text c o ≠ [] := by
  simp only [chunk_text]
  split
  · simp
  · next h => simpa [List.isEmpty_iff] using h

/-! ## Claim C6 -/

/-- C6: when zero questions survive the parser's filtering, the endpoint
returns the 500 "No questions were generated" error — not a successful
response carrying an empty question list — and this failure is distinct
from the 503 model-unavailable error raised before the pipeline runs. -/
theorem c6_empty_generation_is_error (text : String) (c o nq : Nat)
    (rel : List String) (resp name e : String) :
    (parse_questions resp nq = [] →
      generate_questions_endpoint (Except.ok name) text c o nq rel resp =
        Except.error (500,
          "No questions were generated. Please try again or provide different text.")) ∧
    generate_questions_endpoint (Except.error e) text c o nq rel resp =
      Except.error (503, "LLM service unavailable: " ++ e) ∧
    (500 : Nat) ≠ 503 := by
  refine ⟨?_, rfl, by decide⟩
  intro hempty
  have hne : (chunk_text text c o).isEmpty = false := by
    simp [List.isEmpty_iff, chunk_text_ne_nil text c o]
  simp [generate_questions_endpoint, hne, hempty]

/-- C6 witness: a response with no question marks parses to zero questions
and yields the 500 error; a missing backend yields the 503 error. -/
theorem c6_witness :
    generate_questions_endpoint (Except.ok "mistral") "some text" 300 50 5 [] "no questions" =
      Except.error (500,
        "No questions were generated. Please try again or provide different text.") ∧
    generate_questions_endpoint (Except.error "no backends") "some text" 300 50 5 [] "x" =
      Except.error (503, "LLM service unavailable: no backends") :=
  ⟨(c6_empty_generation_is_error "some text" 300 50 5 [] "no questions" "mistral" "x").1
      (by decide),
   (c6_empty_generation_is_error "some text" 300 50 5 [] "x" "y" "no backends").2.1⟩

end Research
